import Mathlib

/-!
Verification development for the uni_bot RAG service.

The Python service (src/app/api/services/rag_service.py, src/app/api/rag_api.py,
src/app/api/agents/agents.py) is shallowly embedded here: the in-memory maps
(Python dicts, which preserve insertion order) become association lists, the
external collaborators (sha256, document loaders, the text splitter, uuid4,
datetime.now, ChromaDB and the Groq chat model) become an explicit oracle
record `Env`, and stateful methods become functions returning a result paired
with the successor state.  Exceptions become `Except`; chat-model invocations
are additionally returned as an explicit trace (list of prompts sent), so that
claims about which model calls happen are statable.
-/

set_option maxRecDepth 20000

/-- Chat message, rag_service.py lines 439-442: a dict with role and content. -/
structure Message where
  role : String
  content : String
deriving DecidableEq

/-- Session registry entry, rag_service.py lines 388-391: created_at and
last_accessed ISO timestamps. -/
structure SessionMeta where
  created_at : String
  last_accessed : String
deriving DecidableEq

/-- Document metadata entry, rag_service.py line 225: filename and content_hash. -/
structure DocMeta where
  filename : String
  content_hash : String
deriving DecidableEq

/-- A chunk as stored in the vector store: its text plus the metadata stamped
by ingest_document at rag_service.py lines 205-208. -/
structure Chunk where
  text : String
  document_id : String
  filename : String
  content_hash : String
deriving DecidableEq

/-- Lookup in an insertion-ordered association list, modelling Python dict
indexing and `.get`. -/
def dget {β : Type} : List (String × β) → String → Option β
  | [], _ => none
  | (k1, v) :: rest, k => if k1 = k then some v else dget rest k

/-- Membership test on an association list, modelling Python `in` on a dict. -/
def dhas {β : Type} (m : List (String × β)) (k : String) : Bool :=
  (dget m k).isSome

/-- Assignment on an association list, modelling Python dict assignment:
an existing key is updated in place (keeping its insertion position), a new
key is appended at the end, as CPython dicts preserve insertion order. -/
def dset {β : Type} : List (String × β) → String → β → List (String × β)
  | [], k, v => [(k, v)]
  | (k1, v1) :: rest, k, v =>
      if k1 = k then (k, v) :: rest else (k1, v1) :: dset rest k v

/-- Deletion on an association list, modelling Python `del d[k]` (dict keys
are unique, so at most one entry is removed in any state a dict can be in). -/
def ddel {β : Type} : List (String × β) → String → List (String × β)
  | [], _ => []
  | (k1, v1) :: rest, k =>
      if k1 = k then ddel rest k else (k1, v1) :: ddel rest k

/-- Extension of a path, modelling os.path.splitext: the suffix of the last
path component starting at its last dot, where leading dots of the component
do not count as extension separators. -/
def splitextExt (path : String) : String :=
  let b := ((path.toList.reverse.takeWhile (fun c => c ≠ '/')).reverse)
  let lead := (b.takeWhile (fun c => c = '.')).length
  let core := b.drop lead
  let afterRev := core.reverse.takeWhile (fun c => c ≠ '.')
  if afterRev.length = core.length then ""
  else String.mk ('.' :: afterRev.reverse)

/-- ASCII lowercasing of one character, modelling Python str.lower on the
ASCII range (the only range exercised by extensions and file types here). -/
def charLower (c : Char) : Char :=
  if c.toNat < 65 then c
  else if c.toNat ≤ 90 then Char.ofNat (c.toNat + 32)
  else c

/-- ASCII lowercasing of a string, modelling Python str.lower. -/
def strLower (s : String) : String :=
  String.mk (s.toList.map charLower)

/-- File type of a path, rag_service.py lines 159-162 (_get_file_type):
splitext extension, lowercased, with leading dots stripped. -/
def get_file_type (file_path : String) : String :=
  String.mk ((strLower (splitextExt file_path)).toList.dropWhile (fun c => c = '.'))

/-- Python-level exceptions raised by the service, tagged by their Python
class so that rag_api.py error mapping (ValueError vs generic Exception)
is representable. -/
inductive PyErr where
  | valueErr (msg : String)
  | attributeErr (msg : String)
  | indexErr
  | keyErr
  | storeErr (msg : String)
  | loaderErr (msg : String)
deriving DecidableEq

/-- External collaborators of the service, made explicit as oracles: sha256
hex digest, filesystem existence, the type-specific document loaders, the
RecursiveCharacterTextSplitter, the uuid4 stream (indexed by a draw counter),
ChromaDB add_documents and metadata-filtered delete (which may throw), the
similarity scoring underlying ChromaDB search, the chat model and the
datetime.now stream (indexed by a clock). -/
structure Env where
  hashHex : List Nat → String
  fileOnDisk : String → Bool
  loadDocument : String → String → Except String (List String)
  splitDocs : List String → List String
  freshUuid : Nat → String
  addDocuments : List Chunk → Except String Unit
  deleteWhere : String → Except String Unit
  score : String → Chunk → Int
  llm : String → String
  nowString : Nat → String

/-- In-memory state of the RAGService instance plus the (persistent) vector
store content, rag_service.py lines 39-43.  uuidCounter and clock index the
uuid4 and datetime.now oracle streams. -/
structure ServiceState where
  chat_history : List (String × List Message)
  document_metadata : List (String × DocMeta)
  content_hashes : List (String × String)
  session_registry : List (String × SessionMeta)
  vectorStore : List Chunk
  uuidCounter : Nat
  clock : Nat
deriving DecidableEq

/-- State of a freshly constructed RAGService (rag_service.py lines 30-45):
all four in-memory maps empty, no vector store content. -/
def RAGService.initial : ServiceState :=
  { chat_history := [], document_metadata := [], content_hashes := [],
    session_registry := [], vectorStore := [], uuidCounter := 0, clock := 0 }

/-- Document-count ceiling, config.py line 56. -/
def MAX_DOCUMENTS_IN_MEMORY : Nat := 50

/-- Body found at rag_service.py lines 124-132.  In the source this body has
no `def` header: it sits (dead) inside get_agent_orchestrator after its
return statement, so the class has no attribute with this name.  The body is
nevertheless source text and is embedded here as the function it plainly was
meant to be: reject a missing file, then reject a lowercased file type
outside the supported set, both with ValueError. -/
def validate_file_body (e : Env) (file_path : String) (file_type : String) :
    Except PyErr Bool :=
  if ¬ e.fileOnDisk file_path then
    .error (.valueErr ("File not found: " ++ file_path))
  else if ¬ (strLower file_type ∈ (["pdf", "txt", "csv", "xlsx", "xls"] : List String)) then
    .error (.valueErr ("Unsupported file type: " ++ file_type))
  else
    .ok true

/-- RAGService.ingest_document exactly as the source executes
(rag_service.py lines 178-231): the sha256 content hash is computed and
checked against content_hashes first (line 185; ValueError on a duplicate);
otherwise line 190 evaluates `self._validate_file`, and since the class has
no such attribute (the `def` header is missing, see validate_file_body) this
raises AttributeError before any loading, chunking or storage, leaving the
state untouched. -/
def RAGService.ingest_document (e : Env) (st : ServiceState)
    (file_path filename : String) (fileBytes : List Nat) :
    Except PyErr Nat × ServiceState :=
  let content_hash := e.hashHex fileBytes
  if dhas st.content_hashes content_hash then
    (.error (.valueErr ("Document " ++ filename ++ " with same content already exists.")), st)
  else
    (.error (.attributeErr "RAGService object has no attribute _validate_file"), st)

/-- Chunk stamping of rag_service.py lines 203-208: every split text becomes
a chunk carrying the fresh document_id, the display filename and the content
hash. -/
def mkChunks (texts : List String) (document_id filename content_hash : String) :
    List Chunk :=
  texts.map (fun t =>
    { text := t, document_id := document_id, filename := filename,
      content_hash := content_hash })

/-- Commit step of a successful ingestion, rag_service.py lines 216-226: the
chunks are appended to the vector store (and one uuid has been drawn), then
if the metadata map already has MAX_DOCUMENTS_IN_MEMORY or more entries the
first dict key is deleted from it (and from it only), and finally the new
metadata entry and the new content-hash entry are written. -/
def ingestCommitState (st : ServiceState)
    (document_id filename content_hash : String) (docs_chunks : List Chunk) :
    ServiceState :=
  let st1 := { st with vectorStore := st.vectorStore ++ docs_chunks,
                       uuidCounter := st.uuidCounter + 1 }
  let st2 :=
    if MAX_DOCUMENTS_IN_MEMORY ≤ st1.document_metadata.length then
      match st1.document_metadata with
      | [] => st1
      | (oldest_id, _) :: _ =>
          { st1 with document_metadata := ddel st1.document_metadata oldest_id }
    else st1
  { st2 with
      document_metadata := dset st2.document_metadata document_id
        { filename := filename, content_hash := content_hash },
      content_hashes := dset st2.content_hashes content_hash filename }

/-- RAGService.ingest_document as evidently intended, i.e. with the missing
`def _validate_file` header restored so that line 190 runs the body at lines
124-132 instead of raising AttributeError.  Everything else follows the
source (lines 178-231) step by step: duplicate-hash check, file-type
validation, loading, splitting, stamping every chunk with a fresh
document_id plus filename and content_hash, the `docs_chunks[0]` debug print
at line 209 (an IndexError when the splitter returns no chunks), the
add_documents call (whose failure propagates with no state change to the
maps), the insertion-order eviction at lines 220-223 (delete of the first
dict key, with no vector-store deletion), and finally the registration of
the metadata entry and of the content hash. -/
def RAGService.ingest_document_intended (e : Env) (st : ServiceState)
    (file_path filename : String) (fileBytes : List Nat) :
    Except PyErr Nat × ServiceState :=
  let content_hash := e.hashHex fileBytes
  if dhas st.content_hashes content_hash then
    (.error (.valueErr ("Document " ++ filename ++ " with same content already exists.")), st)
  else
    let file_type := get_file_type file_path
    match validate_file_body e file_path file_type with
    | .error er => (.error er, st)
    | .ok _ =>
      match e.loadDocument file_path file_type with
      | .error m => (.error (.loaderErr m), st)
      | .ok documents =>
        let document_id := e.freshUuid st.uuidCounter
        let docs_chunks := mkChunks (e.splitDocs documents) document_id filename content_hash
        if docs_chunks.isEmpty then
          (.error .indexErr, { st with uuidCounter := st.uuidCounter + 1 })
        else
          match e.addDocuments docs_chunks with
          | .error m =>
              (.error (.storeErr m), { st with uuidCounter := st.uuidCounter + 1 })
          | .ok _ =>
            (.ok docs_chunks.length,
             ingestCommitState st document_id filename content_hash docs_chunks)

/-- RAGService.delete_document, rag_service.py lines 351-381: ValueError for
an unknown id; otherwise the ChromaDB metadata-filtered delete runs first
(failure propagates, registry untouched), then the content-hash entry and the
metadata entry are removed (Python `del` raises KeyError when the hash key is
absent, in which case the metadata entry stays). -/
def RAGService.delete_document (e : Env) (st : ServiceState)
    (document_id : String) : Except PyErr Unit × ServiceState :=
  if ¬ dhas st.document_metadata document_id then
    (.error (.valueErr ("Document with ID " ++ document_id ++ " not found.")), st)
  else
    match e.deleteWhere document_id with
    | .error m => (.error (.storeErr m), st)
    | .ok _ =>
      let st1 := { st with
        vectorStore := st.vectorStore.filter (fun c => c.document_id ≠ document_id) }
      match dget st.document_metadata document_id with
      | none => (.error .keyErr, st1)
      | some meta =>
        if dhas st.content_hashes meta.content_hash then
          (.ok (), { st1 with
              content_hashes := ddel st1.content_hashes meta.content_hash,
              document_metadata := ddel st1.document_metadata document_id })
        else (.error .keyErr, st1)

/-- One chunk-metadata record as returned by the ChromaDB collection scan;
each field may be absent. -/
structure ScanMeta where
  document_id : Option String
  filename : Option String
  content_hash : Option String
deriving DecidableEq

/-- Python truthiness of an optional string: present and non-empty. -/
def truthy : Option String → Bool
  | some s => ¬ (s = "")
  | none => false

/-- RAGService._load_existing_document_metadata, rag_service.py lines
314-345: on a failed scan the exception is swallowed and the state is
returned unchanged; on an empty or missing metadata list likewise; otherwise
each record with truthy document_id, filename and content_hash whose
document_id was not already seen registers one metadata entry and one
content-hash entry.  Note that nothing in the source ever calls this method. -/
def RAGService.load_existing_document_metadata (st : ServiceState)
    (scan : Except String (List (Option ScanMeta))) : ServiceState :=
  match scan with
  | .error _ => st
  | .ok metadatas =>
    if metadatas = [] then st
    else
      (metadatas.foldl
        (fun (acc : ServiceState × List String) m =>
          match m with
          | none => acc
          | some md =>
            match md.document_id, md.filename, md.content_hash with
            | some did, some fn, some h =>
              if did ≠ "" ∧ fn ≠ "" ∧ h ≠ "" ∧ did ∉ acc.2 then
                ({ acc.1 with
                     document_metadata := dset acc.1.document_metadata did
                       { filename := fn, content_hash := h },
                     content_hashes := dset acc.1.content_hashes h fn },
                 did :: acc.2)
              else acc
            | _, _, _ => acc)
        (st, [])).1

/-- Process start, rag_service.py lines 458-464: importing the module
constructs a fresh RAGService, whose __init__ (lines 30-45) only creates the
four empty maps.  No method that reads the persisted vector store back into
the registry is invoked anywhere (load_existing_document_metadata has no
caller in the repository), so the registry maps start empty regardless of
what the persistent ChromaDB directory already contains. -/
def processStart (persistedStore : List Chunk) : ServiceState :=
  { RAGService.initial with vectorStore := persistedStore }

/-- RAGService.start_new_session, rag_service.py lines 383-393: a fresh uuid,
an empty chat history entry and a registry entry with two datetime.now draws. -/
def RAGService.start_new_session (e : Env) (st : ServiceState) :
    String × ServiceState :=
  let session_id := e.freshUuid st.uuidCounter
  (session_id,
   { st with
       chat_history := dset st.chat_history session_id [],
       session_registry := dset st.session_registry session_id
         { created_at := e.nowString st.clock,
           last_accessed := e.nowString (st.clock + 1) },
       uuidCounter := st.uuidCounter + 1,
       clock := st.clock + 2 })

/-- RAGService.clear_session_history, rag_service.py lines 395-401: empties
the history list in place when the session has one, otherwise does nothing. -/
def RAGService.clear_session_history (st : ServiceState) (session_id : String) :
    ServiceState :=
  if dhas st.chat_history session_id then
    { st with chat_history := dset st.chat_history session_id [] }
  else st

/-- One row of the get_all_sessions listing, rag_service.py lines 408-413. -/
structure SessionView where
  session_id : String
  created_at : String
  last_accessed : String
  message_count : Nat
deriving DecidableEq

/-- Stable descending insertion by last_accessed, modelling Python
list.sort(key=last_accessed, reverse=True): an element is placed before the
first element whose key is strictly smaller, so equal keys keep their
original relative order. -/
def insertByLastAccessedDesc (p : SessionView) :
    List SessionView → List SessionView
  | [] => [p]
  | q :: rest =>
      if q.last_accessed < p.last_accessed then p :: q :: rest
      else q :: insertByLastAccessedDesc p rest

/-- Stable sort underlying get_all_sessions. -/
def sortByLastAccessedDesc : List SessionView → List SessionView
  | [] => []
  | p :: rest => insertByLastAccessedDesc p (sortByLastAccessedDesc rest)

/-- RAGService.get_all_sessions, rag_service.py lines 403-416: one view per
registry entry with the message count taken from chat_history.get, sorted by
last_accessed descending. -/
def RAGService.get_all_sessions (st : ServiceState) : List SessionView :=
  sortByLastAccessedDesc
    (st.session_registry.map
      (fun p =>
        { session_id := p.1, created_at := p.2.created_at,
          last_accessed := p.2.last_accessed,
          message_count := ((dget st.chat_history p.1).getD []).length }))

/-- RAGService.get_session_history, rag_service.py lines 418-424: when the
session is registered its last_accessed is refreshed, then the history is
read with chat_history.get (which, unlike defaultdict indexing, creates
nothing). -/
def RAGService.get_session_history (e : Env) (st : ServiceState)
    (session_id : String) : List Message × ServiceState :=
  let st1 :=
    if dhas st.session_registry session_id then
      { st with
          session_registry :=
            match dget st.session_registry session_id with
            | some m => dset st.session_registry session_id
                { m with last_accessed := e.nowString st.clock }
            | none => st.session_registry,
          clock := st.clock + 1 }
    else st
  ((dget st1.chat_history session_id).getD [], st1)

/-- RAGService.add_message_to_session, rag_service.py lines 426-447: an
unknown session id is auto-created in the registry (two datetime.now draws)
and in chat_history, the message is appended, and last_accessed is
refreshed. -/
def RAGService.add_message_to_session (e : Env) (st : ServiceState)
    (session_id role content : String) : ServiceState :=
  let st1 :=
    if dhas st.session_registry session_id then st
    else
      { st with
          session_registry := dset st.session_registry session_id
            { created_at := e.nowString st.clock,
              last_accessed := e.nowString (st.clock + 1) },
          clock := st.clock + 2 }
  let st2 :=
    if dhas st1.chat_history session_id then st1
    else { st1 with chat_history := dset st1.chat_history session_id [] }
  let st3 := { st2 with
    chat_history := dset st2.chat_history session_id
      (((dget st2.chat_history session_id).getD []) ++ [({ role := role, content := content } : Message)]) }
  { st3 with
      session_registry :=
        match dget st3.session_registry session_id with
        | some m => dset st3.session_registry session_id
            { m with last_accessed := e.nowString st3.clock }
        | none => st3.session_registry,
      clock := st3.clock + 1 }

/-- Ascending insertion by score (ChromaDB returns results by increasing
distance). -/
def insertByScore (p : Chunk × Int) : List (Chunk × Int) → List (Chunk × Int)
  | [] => [p]
  | q :: rest => if p.2 ≤ q.2 then p :: q :: rest else q :: insertByScore p rest

/-- Sort underlying the similarity search model. -/
def sortByScore : List (Chunk × Int) → List (Chunk × Int)
  | [] => []
  | p :: rest => insertByScore p (sortByScore rest)

/-- Model of Chroma.similarity_search_with_score with an optional filename
metadata filter: candidate chunks are those passing the filter, each scored
by the external embedding-distance oracle, and the k best (lowest-distance)
are returned.  An empty candidate set yields an empty result for every
oracle and k. -/
def similarity_search_with_score (e : Env) (store : List Chunk)
    (query : String) (k : Nat) (filt : Option String) : List (Chunk × Int) :=
  let candidates : List Chunk :=
    match filt with
    | some name => store.filter (fun c => decide (c.filename = name))
    | none => store
  (sortByScore (candidates.map (fun c => (c, e.score query c)))).take k

/-- Response shape of the simple query pipeline: the zero-chunk branch also
carries a source_documents key (rag_service.py line 263), the model-call
branch does not (line 285). -/
structure QueryResponse where
  answer : String
  source_documents : Option (List Chunk)
deriving DecidableEq

/-- Prompt template of the simple query pipeline, rag_service.py lines
269-275. -/
def simplePromptText (context query : String) : String :=
  "You are a helpful AI assistant. Use the following context from a document to answer the question. " ++
  "If you don\x27t know the answer, just say that you don\x27t know, don\x27t try to make up an answer.\n\n" ++
  "Context:\n" ++ context ++ "\n\n" ++
  "Question: " ++ query ++ "\n\n" ++
  "Answer:"

/-- RAGService.generate_answer, rag_service.py lines 234-290: similarity
search (filtered by document_name when given), the canned answer with an
empty source_documents list when nothing is found, otherwise one chat-model
call on the templated prompt whose context joins the chunk texts with the
literal slash-n separator of line 266 (a typo in the source, kept as is).
The second component is the list of prompts sent to the chat model. -/
def RAGService.generate_answer (e : Env) (st : ServiceState)
    (query session_id : String) (k : Nat) (document_name : Option String) :
    QueryResponse × List String :=
  let search_results := similarity_search_with_score e st.vectorStore query k document_name
  if search_results = [] then
    ({ answer := "No relevant information in the provided documents",
       source_documents := some [] }, [])
  else
    let context := String.intercalate "/n/n---/n/n"
      (search_results.map (fun p => p.1.text))
    let prompt := simplePromptText context query
    ({ answer := e.llm prompt, source_documents := none }, [prompt])

/-- Planner prompt template, agents.py lines 14-21. -/
def plannerPromptText (query : String) : String :=
  "\n        You are a planning agent. Given a user query, break it down into logical steps.\n        Return a JSON list of steps to answer this query.\n        \n        Query: " ++
  query ++ "\n        \n        Steps (return as JSON list):\n        "

/-- PlannerAgent.plan, agents.py lines 12-25: one chat-model call on the
planner template; the entire raw response text becomes the single element of
the returned plan list, with no parsing or validation.  The second component
is the list of prompts sent to the chat model. -/
def PlannerAgent.plan (e : Env) (query : String) : List String × List String :=
  let response_text := e.llm (plannerPromptText query)
  ([response_text], [plannerPromptText query])

/-- RetrieverAgent.retrieve, agents.py lines 34-40: an unfiltered similarity
search over the whole store, scores dropped. -/
def RetrieverAgent.retrieve (e : Env) (store : List Chunk) (query : String)
    (k : Nat) : List Chunk :=
  (similarity_search_with_score e store query k none).map Prod.fst

/-- Chunk-text concatenation used by the reasoning and response stages,
agents.py lines 50 and 76. -/
def docContext (documents : List Chunk) : String :=
  String.intercalate "\n---\n" (documents.map (fun d => d.text))

/-- Reasoning prompt template, agents.py lines 52-62. -/
def reasonPromptText (query doc_context : String) : String :=
  "\n        You are a reasoning agent. Analyze the provided documents in context of the user query.\n        Identify key information, connections, and insights.\n        \n        Query: " ++
  query ++ "\n        \n        Retrieved Documents:\n        " ++ doc_context ++
  "\n        \n        Analysis:\n        "

/-- ReasoningAgent.reason, agents.py lines 48-66: one chat-model call, raw
text returned, prompts traced. -/
def ReasoningAgent.reason (e : Env) (query : String) (documents : List Chunk) :
    String × List String :=
  let prompt := reasonPromptText query (docContext documents)
  (e.llm prompt, [prompt])

/-- Response prompt template, agents.py lines 78-91. -/
def respondPromptText (query analysis doc_context : String) : String :=
  "\n        You are a response generation agent. Using the analysis and retrieved documents, \n        generate a comprehensive, grounded answer to the user query.\n        Ground your answer only in the provided documents. If you don\x27t know, say so.\n        \n        Query: " ++
  query ++ "\n        \n        Previous Analysis: " ++ analysis ++
  "\n        \n        Source Documents:\n        " ++ doc_context ++
  "\n        \n        Final Answer:\n        "

/-- ResponseAgent.generate_response, agents.py lines 74-95: one chat-model
call, raw text returned, prompts traced. -/
def ResponseAgent.generate_response (e : Env) (query analysis : String)
    (documents : List Chunk) : String × List String :=
  let prompt := respondPromptText query analysis (docContext documents)
  (e.llm prompt, [prompt])

/-- Result shape of the agent pipeline, agents.py lines 119-124 and 136-141. -/
structure AgentResult where
  answer : String
  plan : List String
  reasoning : String
  agent_reasoning : Bool
deriving DecidableEq

/-- AgentOrchestrator.execute, agents.py lines 106-141: plan, retrieve, and
either the canned zero-chunk result (answer, the stage-1 plan, the fixed
reasoning placeholder, agent_reasoning true) or the reason and respond
stages.  session_id and document_name are accepted and ignored, as in the
source.  The second component is the list of prompts sent to the chat model
over the whole run. -/
def AgentOrchestrator.execute (e : Env) (store : List Chunk) (query : String)
    (session_id document_name : Option String) (k : Nat) :
    AgentResult × List String :=
  let planned := PlannerAgent.plan e query
  let documents := RetrieverAgent.retrieve e store query k
  if documents = [] then
    ({ answer := "No relevant information found in documents",
       plan := planned.1,
       reasoning := "No documents retrieved",
       agent_reasoning := true }, planned.2)
  else
    let reasoned := ReasoningAgent.reason e query documents
    let responded := ResponseAgent.generate_response e query reasoned.1 documents
    ({ answer := responded.1,
       plan := planned.1,
       reasoning := reasoned.1,
       agent_reasoning := true }, planned.2 ++ reasoned.2 ++ responded.2)

/-- API-level error: an HTTPException with status code and detail. -/
inductive ApiErr where
  | http (status : Nat) (detail : String)
deriving DecidableEq

/-- Success shape of POST /ingest, rag_api.py lines 66-70. -/
structure IngestResponse where
  message : String
  filename : String
  chunks_ingested : Nat
deriving DecidableEq

/-- Extension whitelist of the ingestion endpoint, rag_api.py line 38. -/
def supported_types : List String := [".pdf", ".txt", ".csv", ".xlsx", ".xls"]

/-- rag_api.ingest_document, rag_api.py lines 32-83: the lowercased splitext
extension of the uploaded filename is checked against the whitelist before
anything else; on failure an HTTP 400 is raised with no file written and no
service call.  Otherwise the upload is written to a temp path ending in the
filename and the service ingest runs on it; a ValueError maps to HTTP 409
(the duplicate branch), any other exception to HTTP 500. -/
def api_ingest_document (e : Env) (st : ServiceState) (filename : String)
    (fileBytes : List Nat) : Except ApiErr IngestResponse × ServiceState :=
  let file_ext := strLower (splitextExt filename)
  if ¬ (file_ext ∈ supported_types) then
    (.error (.http 400 ("Unsupported file type: " ++ file_ext ++
       ". Supported formats: PDF, TXT, CSV, XLSX, XLS")), st)
  else
    match RAGService.ingest_document e st filename filename fileBytes with
    | (.ok n, st') =>
        (.ok { message := "Document ingested successfully", filename := filename,
               chunks_ingested := n }, st')
    | (.error (.valueErr m), st') =>
        (.error (.http 409 ("Duplicate document: " ++ m)), st')
    | (.error _, st') =>
        (.error (.http 500 "Failed to ingest document"), st')

/-- Concrete oracle assignment used by witnesses and counterexamples: the
hash of a byte list is its printed form, uuids and timestamps are drawn as
numbered strings, every file exists, every load returns one segment, the
splitter is the identity, the store always succeeds and scores everything 0,
and the chat model echoes a fixed answer. -/
def envA : Env :=
  { hashHex := fun bs => toString bs,
    fileOnDisk := fun _ => true,
    loadDocument := fun _ _ => .ok ["page one"],
    splitDocs := fun ds => ds,
    freshUuid := fun n => "u" ++ toString n,
    addDocuments := fun _ => .ok (),
    deleteWhere := fun _ => .ok (),
    score := fun _ _ => 0,
    llm := fun _ => "MODEL OUTPUT",
    nowString := fun n => "t" ++ toString n }

/-- Variant of envA whose vector-store add_documents call always throws. -/
def envStoreFail : Env :=
  { envA with addDocuments := fun _ => .error "store unavailable" }

theorem dhas_false_iff {β : Type} (m : List (String × β)) (k : String) :
    dhas m k = false ↔ k ∉ m.map Prod.fst := by
  induction m with
  | nil => simp [dhas, dget]
  | cons p t ih =>
    obtain ⟨k1, v1⟩ := p
    by_cases h : k1 = k
    · subst h
      simp [dhas, dget]
    · simp only [dhas, dget, if_neg h, List.map_cons, List.mem_cons]
      rw [dhas] at ih
      simp [ih]
      tauto

theorem dset_eq_append {β : Type} {m : List (String × β)} {k : String} (v : β)
    (h : dhas m k = false) : dset m k v = m ++ [(k, v)] := by
  induction m with
  | nil => simp [dset]
  | cons p t ih =>
    obtain ⟨k1, v1⟩ := p
    by_cases hk : k1 = k
    · subst hk
      simp [dhas, dget] at h
    · simp only [dset, if_neg hk, List.cons_append, List.cons.injEq, true_and]
      apply ih
      simp only [dhas, dget, if_neg hk] at h
      exact h

theorem ddel_eq_self {β : Type} {m : List (String × β)} {k : String}
    (h : dhas m k = false) : ddel m k = m := by
  induction m with
  | nil => simp [ddel]
  | cons p t ih =>
    obtain ⟨k1, v1⟩ := p
    by_cases hk : k1 = k
    · subst hk
      simp [dhas, dget] at h
    · simp only [ddel, if_neg hk, List.cons.injEq, true_and]
      apply ih
      simp only [dhas, dget, if_neg hk] at h
      exact h

theorem ddel_head {β : Type} {k : String} {v : β} {t : List (String × β)}
    (h : (((k, v) :: t).map Prod.fst).Nodup) : ddel ((k, v) :: t) k = t := by
  simp only [ddel, if_pos rfl]
  apply ddel_eq_self
  rw [dhas_false_iff]
  simp only [List.map_cons, List.nodup_cons] at h
  exact h.1

theorem ddel_sublist {β : Type} (m : List (String × β)) (k : String) :
    (ddel m k).Sublist m := by
  induction m with
  | nil => simp [ddel]
  | cons p t ih =>
    obtain ⟨k1, v1⟩ := p
    by_cases hk : k1 = k
    · simp only [ddel, if_pos hk]
      exact ih.cons _
    · simp only [ddel, if_neg hk]
      exact ih.cons₂ _

theorem nodup_keys_ddel {β : Type} {m : List (String × β)} (k : String)
    (h : (m.map Prod.fst).Nodup) : ((ddel m k).map Prod.fst).Nodup :=
  ((ddel_sublist m k).map Prod.fst).nodup h

theorem perm_cons_ddel {β : Type} {m : List (String × β)} {k : String} {v : β}
    (hget : dget m k = some v) (hnd : (m.map Prod.fst).Nodup) :
    m.Perm ((k, v) :: ddel m k) := by
  induction m with
  | nil => simp [dget] at hget
  | cons p t ih =>
    obtain ⟨k1, v1⟩ := p
    simp only [List.map_cons, List.nodup_cons] at hnd
    by_cases hk : k1 = k
    · subst hk
      simp [dget] at hget
      subst hget
      rw [ddel_head]
      simp only [List.map_cons, List.nodup_cons]
      exact hnd
    · simp only [dget, if_neg hk] at hget
      simp only [ddel, if_neg hk]
      exact ((ih hget hnd.2).cons (k1, v1)).trans
        (List.Perm.swap (k, v) (k1, v1) (ddel t k))

theorem length_ddel {β : Type} {m : List (String × β)} {k : String} {v : β}
    (hget : dget m k = some v) (hnd : (m.map Prod.fst).Nodup) :
    (ddel m k).length + 1 = m.length := by
  have := (perm_cons_ddel hget hnd).length_eq
  simp only [List.length_cons] at this
  omega

theorem dget_of_dhas {β : Type} {m : List (String × β)} {k : String}
    (h : dhas m k = true) : ∃ v, dget m k = some v := by
  unfold dhas at h
  cases hg : dget m k with
  | none => rw [hg] at h; simp at h
  | some v => exact ⟨v, rfl⟩

theorem dget_eq_none {β : Type} {m : List (String × β)} {k : String}
    (h : dhas m k = false) : dget m k = none := by
  unfold dhas at h
  cases hg : dget m k with
  | none => rfl
  | some v => rw [hg] at h; simp at h

theorem dget_dset_self {β : Type} (m : List (String × β)) (k : String) (v : β) :
    dget (dset m k v) k = some v := by
  induction m with
  | nil => simp [dset, dget]
  | cons p t ih =>
    obtain ⟨k1, v1⟩ := p
    by_cases hk : k1 = k
    · subst hk; simp [dset, dget]
    · simp [dset, dget, hk, ih]

theorem dhas_dset_self {β : Type} (m : List (String × β)) (k : String) (v : β) :
    dhas (dset m k v) k = true := by
  simp [dhas, dget_dset_self]

/-- Claim C1 (code bug evidence): the claim says an ingest of a file whose
content hash is not yet registered succeeds with chunks_ingested > 0, but in
the source the `def` header of _validate_file is missing, so at a fresh
one-page text file whose hash is unregistered the service ingest raises
AttributeError instead of succeeding, and the API endpoint reports a 500;
the state is left untouched, so the hash is never registered and a second
identical upload cannot fail with the claimed DuplicateContent either. -/
theorem C1_ingest_raises_attribute_error :
    dhas RAGService.initial.content_hashes (envA.hashHex [104, 105]) = false ∧
    RAGService.ingest_document envA RAGService.initial "notes.txt" "notes.txt" [104, 105] =
      (.error (.attributeErr "RAGService object has no attribute _validate_file"),
       RAGService.initial) ∧
    api_ingest_document envA RAGService.initial "notes.txt" [104, 105] =
      (.error (.http 500 "Failed to ingest document"), RAGService.initial) :=
  ⟨rfl, rfl, rfl⟩

def persistedDoc : Chunk :=
  { text := "alpha", document_id := "d1", filename := "a.txt", content_hash := "h1" }

/-- Claim C4 (code bug evidence): the claim says the registry is rebuilt
from vector-store chunk metadata at process start; but the loader method is
never invoked, so with a persisted store holding the chunk of one fully
tagged document, process start leaves both registry maps empty.  The last
two conjuncts show the uncalled loader itself behaves exactly as claimed:
called on that scan it registers the document, and a failed scan is
swallowed leaving the state unchanged. -/
theorem C4_startup_never_rebuilds_registry :
    (processStart [persistedDoc]).vectorStore ≠ [] ∧
    (processStart [persistedDoc]).document_metadata = [] ∧
    (processStart [persistedDoc]).content_hashes = [] ∧
    (RAGService.load_existing_document_metadata (processStart [persistedDoc])
        (.ok [some { document_id := some "d1", filename := some "a.txt",
                     content_hash := some "h1" }])).document_metadata =
      [("d1", { filename := "a.txt", content_hash := "h1" })] ∧
    RAGService.load_existing_document_metadata (processStart [persistedDoc])
        (.error "scan failed") = processStart [persistedDoc] :=
  ⟨by decide, rfl, rfl, by decide, rfl⟩

/-- Claim C8: for every query, the planner stage returns a list of length
exactly one whose sole element is the chat model raw response text for the
planning prompt, with no parsing or validation of its shape; the trace
records exactly that one model call. -/
theorem C8_planner_single_raw_element (e : Env) (query : String) :
    PlannerAgent.plan e query =
      ([e.llm (plannerPromptText query)], [plannerPromptText query]) ∧
    (PlannerAgent.plan e query).1.length = 1 :=
  ⟨rfl, rfl⟩

/-- Claim C7: for every uploaded file whose lowercased splitext extension is
outside the supported whitelist, the ingestion endpoint fails with the
HTTP 400 unsupported-file-type client error, the state (registry maps and
vector store) is returned unchanged, and the outcome is identical for every
oracle assignment, i.e. no hashing, loading, chunking or storage call can
influence or be influenced by the request. -/
theorem C7_unsupported_extension_rejected_before_service (e : Env)
    (st : ServiceState) (filename : String) (fileBytes : List Nat)
    (hext : strLower (splitextExt filename) ∉ supported_types) :
    api_ingest_document e st filename fileBytes =
      (.error (.http 400 ("Unsupported file type: " ++ strLower (splitextExt filename) ++
         ". Supported formats: PDF, TXT, CSV, XLSX, XLS")), st) ∧
    (∀ e2 : Env, api_ingest_document e2 st filename fileBytes =
        api_ingest_document e st filename fileBytes) := by
  constructor
  · simp only [api_ingest_document, if_pos hext]
  · intro e2
    simp only [api_ingest_document, if_pos hext]

theorem C7_witness :
    (strLower (splitextExt "report.docx") ∉ supported_types) ∧
    api_ingest_document envA RAGService.initial "report.docx" [1] =
      (.error (.http 400 ("Unsupported file type: " ++ strLower (splitextExt "report.docx") ++
         ". Supported formats: PDF, TXT, CSV, XLSX, XLS")), RAGService.initial) ∧
    api_ingest_document envStoreFail RAGService.initial "report.docx" [1] =
      api_ingest_document envA RAGService.initial "report.docx" [1] := by
  have h := C7_unsupported_extension_rejected_before_service envA RAGService.initial
    "report.docx" [1] (by decide)
  exact ⟨by decide, h.1, h.2 envStoreFail⟩

/-- Claim C9: in simple-query mode, when document_name names a filename
carried by no chunk in the vector store (in particular a never-ingested
document, even when other documents exist), the filtered similarity search
returns zero results and generate_answer returns the canned no-relevant-
information response with an empty source list and an empty chat-model call
trace, i.e. without invoking the chat model. -/
theorem C9_simple_mode_absent_document_canned (e : Env) (st : ServiceState)
    (query session_id name : String) (k : Nat)
    (habsent : ∀ c ∈ st.vectorStore, c.filename ≠ name) :
    similarity_search_with_score e st.vectorStore query k (some name) = [] ∧
    RAGService.generate_answer e st query session_id k (some name) =
      ({ answer := "No relevant information in the provided documents",
         source_documents := some [] }, []) := by
  have hsearch : similarity_search_with_score e st.vectorStore query k (some name) = [] := by
    unfold similarity_search_with_score
    have hfil : st.vectorStore.filter (fun c => decide (c.filename = name)) = [] := by
      rw [List.filter_eq_nil]
      intro c hc
      simp [habsent c hc]
    simp [hfil, sortByScore]
  refine ⟨hsearch, ?_⟩
  simp only [RAGService.generate_answer, hsearch]
  simp

theorem C9_witness :
    (∀ c ∈ [persistedDoc], c.filename ≠ "never.csv") ∧
    RAGService.generate_answer envA (processStart [persistedDoc]) "query" "s1" 4
        (some "never.csv") =
      ({ answer := "No relevant information in the provided documents",
         source_documents := some [] }, []) := by
  have h := C9_simple_mode_absent_document_canned envA (processStart [persistedDoc])
    "query" "s1" "never.csv" 4 (by decide)
  exact ⟨by decide, h.2⟩

/-- Claim C2 (amended): when the retrieval stage returns zero chunks, the
orchestrator short-circuits after stage 1 and returns the canned
no-relevant-information answer carrying the stage-1 plan, the fixed
placeholder reasoning note "No documents retrieved" (not an empty note, as
the original claim said) and agent_reasoning true, and the chat-model call
trace contains exactly the planning prompt, so stages 3 and 4 never run. -/
theorem C2_agent_zero_chunk_short_circuit (e : Env) (store : List Chunk)
    (query : String) (sid dn : Option String) (k : Nat)
    (hret : RetrieverAgent.retrieve e store query k = []) :
    AgentOrchestrator.execute e store query sid dn k =
      ({ answer := "No relevant information found in documents",
         plan := [e.llm (plannerPromptText query)],
         reasoning := "No documents retrieved",
         agent_reasoning := true }, [plannerPromptText query]) := by
  simp only [AgentOrchestrator.execute, PlannerAgent.plan, hret]
  simp

theorem C2_witness :
    RetrieverAgent.retrieve envA [] "what is alpha" 3 = [] ∧
    AgentOrchestrator.execute envA [] "what is alpha" (some "s1") none 3 =
      ({ answer := "No relevant information found in documents",
         plan := [envA.llm (plannerPromptText "what is alpha")],
         reasoning := "No documents retrieved",
         agent_reasoning := true }, [plannerPromptText "what is alpha"]) := by
  exact ⟨rfl, C2_agent_zero_chunk_short_circuit envA [] "what is alpha" (some "s1") none 3 rfl⟩

theorem C2_counterexample_reasoning_not_empty :
    RetrieverAgent.retrieve envA [] "what is alpha" 3 = [] ∧
    (AgentOrchestrator.execute envA [] "what is alpha" none none 3).1.reasoning ≠ "" :=
  ⟨rfl, by decide⟩

/-- Claim C10: for a session id that was never created (absent from the
session registry and from the chat-history map), get_session_history
returns the empty history and the state completely unchanged, hence the
get_all_sessions listing is also unchanged by the read; by contrast,
add_message_to_session on the same unknown id creates the session in the
registry as a side effect. -/
theorem C10_get_history_unknown_session_no_side_effect (e : Env)
    (st : ServiceState) (session_id role content : String)
    (hreg : dhas st.session_registry session_id = false)
    (hhist : dhas st.chat_history session_id = false) :
    RAGService.get_session_history e st session_id = ([], st) ∧
    RAGService.get_all_sessions (RAGService.get_session_history e st session_id).2 =
      RAGService.get_all_sessions st ∧
    dhas (RAGService.add_message_to_session e st session_id role content).session_registry
      session_id = true := by
  have h1 : RAGService.get_session_history e st session_id = ([], st) := by
    simp only [RAGService.get_session_history, hreg]
    simp [dget_eq_none hhist]
  refine ⟨h1, by rw [h1], ?_⟩
  simp [RAGService.add_message_to_session, hreg, hhist, dget_dset_self, dhas_dset_self]

theorem C10_witness :
    dhas RAGService.initial.session_registry "s9" = false ∧
    RAGService.get_session_history envA RAGService.initial "s9" = ([], RAGService.initial) ∧
    dhas (RAGService.add_message_to_session envA RAGService.initial "s9" "user"
        "hello").session_registry "s9" = true := by
  have h := C10_get_history_unknown_session_no_side_effect envA RAGService.initial
    "s9" "user" "hello" rfl rfl
  exact ⟨rfl, h.1, h.2.2⟩

theorem dhas_cons_false {β : Type} {p : String × β} {t : List (String × β)}
    {k : String} (h : dhas (p :: t) k = false) : dhas t k = false := by
  obtain ⟨k1, v1⟩ := p
  by_cases hk : k1 = k
  · simp [dhas, dget, hk] at h
  · simpa [dhas, dget, hk] using h

theorem ingest_intended_ok {e : Env} {st : ServiceState}
    {fp fn : String} {bytes : List Nat} {n : Nat} {st' : ServiceState}
    (h : RAGService.ingest_document_intended e st fp fn bytes = (.ok n, st')) :
    dhas st.content_hashes (e.hashHex bytes) = false ∧
    ∃ documents,
      e.loadDocument fp (get_file_type fp) = .ok documents ∧
      mkChunks (e.splitDocs documents) (e.freshUuid st.uuidCounter) fn
        (e.hashHex bytes) ≠ [] ∧
      n = (mkChunks (e.splitDocs documents) (e.freshUuid st.uuidCounter) fn
        (e.hashHex bytes)).length ∧
      st' = ingestCommitState st (e.freshUuid st.uuidCounter) fn (e.hashHex bytes)
        (mkChunks (e.splitDocs documents) (e.freshUuid st.uuidCounter) fn
          (e.hashHex bytes)) := by
  unfold RAGService.ingest_document_intended at h
  by_cases hdup : dhas st.content_hashes (e.hashHex bytes) = true
  · rw [if_pos hdup] at h
    simp at h
  · rw [if_neg hdup] at h
    dsimp only at h
    refine ⟨by simpa using hdup, ?_⟩
    cases hval : validate_file_body e fp (get_file_type fp) with
    | error er => simp only [hval] at h; simp at h
    | ok b =>
      simp only [hval] at h
      cases hload : e.loadDocument fp (get_file_type fp) with
      | error m => simp only [hload] at h; simp at h
      | ok documents =>
        simp only [hload] at h
        refine ⟨documents, rfl, ?_⟩
        by_cases hemp : (mkChunks (e.splitDocs documents)
            (e.freshUuid st.uuidCounter) fn (e.hashHex bytes)).isEmpty = true
        · rw [if_pos hemp] at h
          simp at h
        · rw [if_neg hemp] at h
          cases hadd : e.addDocuments (mkChunks (e.splitDocs documents)
              (e.freshUuid st.uuidCounter) fn (e.hashHex bytes)) with
          | error m => simp only [hadd] at h; simp at h
          | ok u =>
            simp only [hadd] at h
            simp only [Prod.mk.injEq, Except.ok.injEq] at h
            refine ⟨?_, h.1.symm, h.2.symm⟩
            intro hnil
            rw [hnil] at hemp
            simp at hemp

/-- Claim C6: if the vector-store storage call of ingestion step 6 throws,
the (intended, see C1) ingest propagates the failure as a storage error
while the document-metadata map, the content-hash map and the vector store
are all left as they were and the content hash remains unregistered; hence
a retry of the same content against a recovered store is not rejected as a
duplicate but succeeds with a positive chunk count. -/
theorem C6_store_failure_leaves_registry_unchanged (e : Env) (st : ServiceState)
    (fp fn : String) (bytes : List Nat) (documents : List String) (m : String)
    (hdup : dhas st.content_hashes (e.hashHex bytes) = false)
    (hval : validate_file_body e fp (get_file_type fp) = .ok true)
    (hload : e.loadDocument fp (get_file_type fp) = .ok documents)
    (hne : e.splitDocs documents ≠ [])
    (hstore : e.addDocuments (mkChunks (e.splitDocs documents)
      (e.freshUuid st.uuidCounter) fn (e.hashHex bytes)) = .error m) :
    RAGService.ingest_document_intended e st fp fn bytes =
      (.error (.storeErr m), { st with uuidCounter := st.uuidCounter + 1 }) ∧
    (RAGService.ingest_document_intended e st fp fn bytes).2.document_metadata =
      st.document_metadata ∧
    (RAGService.ingest_document_intended e st fp fn bytes).2.content_hashes =
      st.content_hashes ∧
    (RAGService.ingest_document_intended e st fp fn bytes).2.vectorStore =
      st.vectorStore ∧
    dhas (RAGService.ingest_document_intended e st fp fn bytes).2.content_hashes
      (e.hashHex bytes) = false ∧
    (∀ (e2 : Env) (documents2 : List String),
      e2.hashHex bytes = e.hashHex bytes →
      validate_file_body e2 fp (get_file_type fp) = .ok true →
      e2.loadDocument fp (get_file_type fp) = .ok documents2 →
      e2.splitDocs documents2 ≠ [] →
      e2.addDocuments (mkChunks (e2.splitDocs documents2)
        (e2.freshUuid (st.uuidCounter + 1)) fn (e2.hashHex bytes)) = .ok () →
      ∃ n2 st2,
        RAGService.ingest_document_intended e2
          { st with uuidCounter := st.uuidCounter + 1 } fp fn bytes = (.ok n2, st2) ∧
        0 < n2) := by
  have hrun : RAGService.ingest_document_intended e st fp fn bytes =
      (.error (.storeErr m), { st with uuidCounter := st.uuidCounter + 1 }) := by
    unfold RAGService.ingest_document_intended
    rw [if_neg (by simp [hdup])]
    dsimp only
    simp only [hval, hload]
    rw [if_neg (by simp [mkChunks, hne])]
    simp only [hstore]
  refine ⟨hrun, by rw [hrun], by rw [hrun], by rw [hrun], by rw [hrun]; exact hdup, ?_⟩
  intro e2 documents2 hh2 hval2 hload2 hne2 hadd2
  have hrun2 : RAGService.ingest_document_intended e2
      { st with uuidCounter := st.uuidCounter + 1 } fp fn bytes =
      (.ok (mkChunks (e2.splitDocs documents2) (e2.freshUuid (st.uuidCounter + 1)) fn
        (e2.hashHex bytes)).length,
       ingestCommitState { st with uuidCounter := st.uuidCounter + 1 }
         (e2.freshUuid (st.uuidCounter + 1)) fn (e2.hashHex bytes)
         (mkChunks (e2.splitDocs documents2) (e2.freshUuid (st.uuidCounter + 1)) fn
           (e2.hashHex bytes))) := by
    unfold RAGService.ingest_document_intended
    rw [if_neg (by simp [hh2, hdup])]
    dsimp only
    simp only [hval2, hload2]
    rw [if_neg (by simp [mkChunks, hne2])]
    simp only [hadd2]
  refine ⟨_, _, hrun2, ?_⟩
  simp only [mkChunks, List.length_map]
  exact List.length_pos.mpr hne2

theorem ingestCommitState_vectorStore (st : ServiceState)
    (did fn ch : String) (ck : List Chunk) :
    (ingestCommitState st did fn ch ck).vectorStore = st.vectorStore ++ ck := by
  unfold ingestCommitState
  dsimp only
  by_cases hc : MAX_DOCUMENTS_IN_MEMORY ≤ st.document_metadata.length
  · rw [if_pos hc]
    cases hm : st.document_metadata with
    | nil => rfl
    | cons p t => obtain ⟨a, b⟩ := p; rfl
  · rw [if_neg hc]

theorem ingestCommitState_content_hashes (st : ServiceState)
    (did fn ch : String) (ck : List Chunk) :
    (ingestCommitState st did fn ch ck).content_hashes =
      dset st.content_hashes ch fn := by
  unfold ingestCommitState
  dsimp only
  by_cases hc : MAX_DOCUMENTS_IN_MEMORY ≤ st.document_metadata.length
  · rw [if_pos hc]
    cases hm : st.document_metadata with
    | nil => rfl
    | cons p t => obtain ⟨a, b⟩ := p; rfl
  · rw [if_neg hc]

/-- Claim C5: for a successful (intended, see C1) ingest from a state with
unique metadata keys, at most the ceiling many entries and a fresh uuid,
the metadata map size stays at most MAX_DOCUMENTS_IN_MEMORY, and whenever
the map already holds the ceiling many entries the evicted entry is exactly
the first-inserted one (the head of the insertion-ordered map, which
becomes the tail plus the new entry appended) while the vector store only
grows (the old store is a prefix of the new one, so eviction removes no
chunks). -/
theorem C5_eviction_first_inserted_and_bound (e : Env) (st : ServiceState)
    (fp fn : String) (bytes : List Nat) (n : Nat) (st' : ServiceState)
    (hnd : (st.document_metadata.map Prod.fst).Nodup)
    (hlen : st.document_metadata.length ≤ MAX_DOCUMENTS_IN_MEMORY)
    (hfresh : dhas st.document_metadata (e.freshUuid st.uuidCounter) = false)
    (h : RAGService.ingest_document_intended e st fp fn bytes = (.ok n, st')) :
    st'.document_metadata.length ≤ MAX_DOCUMENTS_IN_MEMORY ∧
    (MAX_DOCUMENTS_IN_MEMORY ≤ st.document_metadata.length →
      st'.document_metadata = st.document_metadata.tail ++
        [(e.freshUuid st.uuidCounter,
          { filename := fn, content_hash := e.hashHex bytes })] ∧
      st.vectorStore <+: st'.vectorStore) := by
  obtain ⟨hdup, documents, hload, hne, hn, hst'⟩ := ingest_intended_ok h
  subst hst'
  by_cases hceil : MAX_DOCUMENTS_IN_MEMORY ≤ st.document_metadata.length
  · cases hm : st.document_metadata with
    | nil =>
      rw [hm] at hceil
      simp [MAX_DOCUMENTS_IN_MEMORY] at hceil
    | cons hd tl =>
      obtain ⟨k0, v0⟩ := hd
      have hnd1 : (((k0, v0) :: tl).map Prod.fst).Nodup := by rw [← hm]; exact hnd
      have hdelhd : ddel ((k0, v0) :: tl) k0 = tl := ddel_head hnd1
      have hfresh1 : dhas tl (e.freshUuid st.uuidCounter) = false := by
        apply dhas_cons_false (p := (k0, v0))
        rw [← hm]; exact hfresh
      have hmeta : (ingestCommitState st (e.freshUuid st.uuidCounter) fn (e.hashHex bytes)
          (mkChunks (e.splitDocs documents) (e.freshUuid st.uuidCounter) fn
            (e.hashHex bytes))).document_metadata =
          tl ++ [(e.freshUuid st.uuidCounter,
            { filename := fn, content_hash := e.hashHex bytes })] := by
        unfold ingestCommitState
        dsimp only
        rw [if_pos (by simpa [hm] using hceil), hm]
        dsimp only
        rw [hdelhd, dset_eq_append _ hfresh1]
      have hvs := ingestCommitState_vectorStore st (e.freshUuid st.uuidCounter) fn
        (e.hashHex bytes) (mkChunks (e.splitDocs documents)
          (e.freshUuid st.uuidCounter) fn (e.hashHex bytes))
      have hlen2 : tl.length + 1 ≤ MAX_DOCUMENTS_IN_MEMORY := by
        rw [hm] at hlen
        simpa using hlen
      constructor
      · rw [hmeta]
        simpa using hlen2
      · intro _
        refine ⟨by rw [hmeta]; simp [hm], ?_⟩
        rw [hvs]
        exact List.prefix_append _ _
  · have hmeta : (ingestCommitState st (e.freshUuid st.uuidCounter) fn (e.hashHex bytes)
        (mkChunks (e.splitDocs documents) (e.freshUuid st.uuidCounter) fn
          (e.hashHex bytes))).document_metadata =
        st.document_metadata ++ [(e.freshUuid st.uuidCounter,
          { filename := fn, content_hash := e.hashHex bytes })] := by
      unfold ingestCommitState
      dsimp only
      rw [if_neg (by simpa using hceil)]
      dsimp only
      rw [dset_eq_append _ hfresh]
    constructor
    · rw [hmeta]
      simp only [List.length_append, List.length_singleton]
      omega
    · intro hc
      exact absurd hc hceil

def meta50 : List (String × DocMeta) :=
  (List.range 50).map (fun i =>
    ("u" ++ toString i, { filename := "f.txt", content_hash := "h" ++ toString i }))

def hashes50 : List (String × String) :=
  (List.range 50).map (fun i => ("h" ++ toString i, "f.txt"))

def st50 : ServiceState :=
  { chat_history := [], document_metadata := meta50, content_hashes := hashes50,
    session_registry := [], vectorStore := [], uuidCounter := 50, clock := 0 }

theorem C5_witness :
    (st50.document_metadata.map Prod.fst).Nodup ∧
    st50.document_metadata.length = MAX_DOCUMENTS_IN_MEMORY ∧
    (RAGService.ingest_document_intended envA st50 "f.txt" "f.txt" [99]).2.document_metadata =
      st50.document_metadata.tail ++
        [("u50", { filename := "f.txt", content_hash := "[99]" })] ∧
    (RAGService.ingest_document_intended envA st50 "f.txt" "f.txt"
      [99]).2.document_metadata.length ≤ MAX_DOCUMENTS_IN_MEMORY ∧
    st50.vectorStore <+:
      (RAGService.ingest_document_intended envA st50 "f.txt" "f.txt" [99]).2.vectorStore := by
  have h := C5_eviction_first_inserted_and_bound envA st50 "f.txt" "f.txt" [99] 1
    (RAGService.ingest_document_intended envA st50 "f.txt" "f.txt" [99]).2
    (by decide) (by decide) (by decide) rfl
  have h2 := h.2 (by decide)
  exact ⟨by decide, by decide, h2.1, h.1, h2.2⟩

theorem C6_witness :
    RAGService.ingest_document_intended envStoreFail RAGService.initial "a.txt" "a.txt" [7] =
      (.error (.storeErr "store unavailable"),
       { RAGService.initial with uuidCounter := 1 }) ∧
    dhas (RAGService.ingest_document_intended envStoreFail RAGService.initial "a.txt"
      "a.txt" [7]).2.content_hashes (envStoreFail.hashHex [7]) = false ∧
    (∃ n2 st2,
      RAGService.ingest_document_intended envA
        { RAGService.initial with uuidCounter := 1 } "a.txt" "a.txt" [7] =
        (.ok n2, st2) ∧ 0 < n2) := by
  have h := C6_store_failure_leaves_registry_unchanged envStoreFail RAGService.initial
    "a.txt" "a.txt" [7] ["page one"] "store unavailable" rfl rfl rfl (by decide) rfl
  exact ⟨h.1, h.2.2.2.2.1, h.2.2.2.2.2 envA ["page one"] rfl rfl rfl (by decide) rfl⟩

/-- Consistency predicate of claim C3: unique keys in both registry maps and
the multiset of metadata content hashes coinciding with the multiset of
content-hash keys (this subsumes equal sizes and the key correspondence in
both directions). -/
def registryConsistent (st : ServiceState) : Prop :=
  (st.document_metadata.map Prod.fst).Nodup ∧
  (st.content_hashes.map Prod.fst).Nodup ∧
  (st.document_metadata.map (fun p => p.2.content_hash)).Perm
    (st.content_hashes.map Prod.fst)

def ingestStepI (st : ServiceState) (i : Nat) : ServiceState :=
  (RAGService.ingest_document_intended envA st "f.txt" "f.txt" [i]).2

/-- State after 51 successful ingestions of distinct one-chunk files from a
fresh service: the 51st triggers the eviction. -/
def evictedState : ServiceState := (List.range 51).foldl ingestStepI RAGService.initial

theorem C3_counterexample_eviction_desyncs_registry :
    evictedState.document_metadata.length = 50 ∧
    evictedState.content_hashes.length = 51 ∧
    ¬ registryConsistent evictedState := by
  refine ⟨by decide, by decide, ?_⟩
  intro hcon
  have hp := hcon.2.2.length_eq
  simp only [List.length_map] at hp
  have h1 : evictedState.document_metadata.length = 50 := by decide
  have h2 : evictedState.content_hashes.length = 51 := by decide
  omega

theorem nodup_append_single {l : List String} {a : String}
    (hnd : l.Nodup) (ha : a ∉ l) : (l ++ [a]).Nodup := by
  simp [List.nodup_append, ha, hnd]

theorem ingestCommitState_metadata_lt {st : ServiceState}
    (did fn ch : String) (ck : List Chunk)
    (h : st.document_metadata.length < MAX_DOCUMENTS_IN_MEMORY) :
    (ingestCommitState st did fn ch ck).document_metadata =
      dset st.document_metadata did { filename := fn, content_hash := ch } := by
  unfold ingestCommitState
  dsimp only
  rw [if_neg (by omega)]

theorem ingestCommitState_metadata_ceil {st : ServiceState}
    (did fn ch : String) (ck : List Chunk)
    (hnd : (st.document_metadata.map Prod.fst).Nodup)
    (h : MAX_DOCUMENTS_IN_MEMORY ≤ st.document_metadata.length) :
    (ingestCommitState st did fn ch ck).document_metadata =
      dset st.document_metadata.tail did { filename := fn, content_hash := ch } := by
  unfold ingestCommitState
  dsimp only
  rw [if_pos h]
  cases hm : st.document_metadata with
  | nil =>
    rw [hm] at h
    simp [MAX_DOCUMENTS_IN_MEMORY] at h
  | cons p t =>
    obtain ⟨k0, v0⟩ := p
    dsimp only
    rw [hm] at hnd
    rw [ddel_head hnd]
    rfl

/-- Claim C3 (amended): from a consistent registry, a successful (intended,
see C1) below-ceiling ingest with a fresh uuid and a successful
delete_document both preserve the mutual consistency of the
document-metadata and content-hash maps, but an at-ceiling ingest evicts
only the metadata entry and leaves the evicted content-hash entry behind,
after which the content-hash map holds exactly one entry more than the
metadata map (the original claim of consistency at every reachable state is
refuted by the eviction counterexample). -/
theorem C3_registry_consistency_amended (e : Env) (st : ServiceState)
    (hcon : registryConsistent st) :
    (∀ fp fn bytes n st',
      dhas st.document_metadata (e.freshUuid st.uuidCounter) = false →
      RAGService.ingest_document_intended e st fp fn bytes = (.ok n, st') →
      (st.document_metadata.length < MAX_DOCUMENTS_IN_MEMORY →
        registryConsistent st') ∧
      (MAX_DOCUMENTS_IN_MEMORY ≤ st.document_metadata.length →
        st'.content_hashes.length = st'.document_metadata.length + 1)) ∧
    (∀ did st' u, RAGService.delete_document e st did = (.ok u, st') →
      registryConsistent st') := by
  obtain ⟨hndM, hndH, hperm⟩ := hcon
  constructor
  · intro fp fn bytes n st' hfresh h
    obtain ⟨hdup, documents, hload, hne, hn, hst'⟩ := ingest_intended_ok h
    subst hst'
    have hhashes := ingestCommitState_content_hashes st (e.freshUuid st.uuidCounter)
      fn (e.hashHex bytes) (mkChunks (e.splitDocs documents)
        (e.freshUuid st.uuidCounter) fn (e.hashHex bytes))
    have hhashesApp : (ingestCommitState st (e.freshUuid st.uuidCounter) fn
        (e.hashHex bytes) (mkChunks (e.splitDocs documents)
          (e.freshUuid st.uuidCounter) fn (e.hashHex bytes))).content_hashes =
        st.content_hashes ++ [(e.hashHex bytes, fn)] := by
      rw [hhashes, dset_eq_append _ hdup]
    constructor
    · intro hlt
      have hmeta := ingestCommitState_metadata_lt (e.freshUuid st.uuidCounter)
        fn (e.hashHex bytes) (mkChunks (e.splitDocs documents)
          (e.freshUuid st.uuidCounter) fn (e.hashHex bytes)) hlt
      refine ⟨?_, ?_, ?_⟩
      · rw [hmeta, dset_eq_append _ hfresh]
        simp only [List.map_append, List.map_cons, List.map_nil]
        exact nodup_append_single hndM ((dhas_false_iff _ _).mp hfresh)
      · rw [hhashesApp]
        simp only [List.map_append, List.map_cons, List.map_nil]
        exact nodup_append_single hndH ((dhas_false_iff _ _).mp hdup)
      · rw [hmeta, dset_eq_append _ hfresh, hhashesApp]
        simp only [List.map_append, List.map_cons, List.map_nil]
        exact hperm.append_right _
    · intro hceil
      have hmeta := ingestCommitState_metadata_ceil (e.freshUuid st.uuidCounter)
        fn (e.hashHex bytes) (mkChunks (e.splitDocs documents)
          (e.freshUuid st.uuidCounter) fn (e.hashHex bytes)) hndM hceil
      have hlens : st.document_metadata.length = st.content_hashes.length := by
        have := hperm.length_eq
        simpa using this
      cases hm : st.document_metadata with
      | nil =>
        rw [hm] at hceil
        simp [MAX_DOCUMENTS_IN_MEMORY] at hceil
      | cons p t =>
        obtain ⟨k0, v0⟩ := p
        have hfresh1 : dhas t (e.freshUuid st.uuidCounter) = false := by
          apply dhas_cons_false (p := (k0, v0))
          rw [← hm]
          exact hfresh
        rw [hhashesApp, hmeta, hm]
        simp only [List.tail_cons]
        rw [dset_eq_append _ hfresh1]
        simp only [List.length_append, List.length_cons, List.length_nil]
        rw [hm] at hlens
        simp only [List.length_cons] at hlens
        omega
  · intro did st' u h
    unfold RAGService.delete_document at h
    by_cases hin : dhas st.document_metadata did = true
    · rw [if_neg (by simp [hin])] at h
      cases hdw : e.deleteWhere did with
      | error m => simp only [hdw] at h; simp at h
      | ok v =>
        simp only [hdw] at h
        cases hget : dget st.document_metadata did with
        | none => simp [dhas, hget] at hin
        | some meta0 =>
          simp only [hget] at h
          by_cases hh : dhas st.content_hashes meta0.content_hash = true
          · rw [if_pos hh] at h
            simp only [Prod.mk.injEq] at h
            have hst' := h.2
            subst hst'
            obtain ⟨fnv, hgeth⟩ := dget_of_dhas hh
            have p1 := perm_cons_ddel hget hndM
            have p2 := perm_cons_ddel hgeth hndH
            refine ⟨nodup_keys_ddel _ hndM, nodup_keys_ddel _ hndH, ?_⟩
            have q1 := p1.map (fun p => p.2.content_hash)
            have q2 := p2.map Prod.fst
            simp only [List.map_cons] at q1 q2
            have chain := (q1.symm.trans hperm).trans q2
            exact chain.cons_inv
          · rw [if_neg hh] at h
            simp at h
    · rw [if_pos (by simpa using hin)] at h
      simp at h

def stA : ServiceState :=
  { chat_history := [],
    document_metadata := [("d1", { filename := "a.txt", content_hash := "h1" })],
    content_hashes := [("h1", "a.txt")], session_registry := [],
    vectorStore := [{ text := "alpha", document_id := "d1", filename := "a.txt",
                      content_hash := "h1" }],
    uuidCounter := 1, clock := 0 }

theorem C3_amended_witness :
    registryConsistent stA ∧
    registryConsistent (RAGService.ingest_document_intended envA stA "b.txt" "b.txt" [5]).2 ∧
    registryConsistent (RAGService.delete_document envA stA "d1").2 := by
  have hconA : registryConsistent stA := ⟨by decide, by decide, by decide⟩
  have h := C3_registry_consistency_amended envA stA hconA
  refine ⟨hconA, ?_, ?_⟩
  · exact (h.1 "b.txt" "b.txt" [5] 1
      (RAGService.ingest_document_intended envA stA "b.txt" "b.txt" [5]).2
      (by decide) rfl).1 (by decide)
  · exact h.2 "d1" (RAGService.delete_document envA stA "d1").2 () rfl
